import Mathlib

/-!
Shallow embedding of the jorup resolution-and-release-inventory engine.

The embedding follows the Rust sources:
  * `src/jorup/src/common.rs`   — the `Channel` enum, `JorupSettings`,
    `JorupConfig::current_entry`, `JorupConfig::set_default_channel`,
    settings (de)serialization;
  * `src/jorup/src/utils/channel.rs` — entry resolution (`Channel::load`),
    workspace preparation (`prepare` / `install_block0_hash`, `write_all_to`);
  * `src/src/commands/node.rs`  — the `install`, `remove` commands.

Strings are modelled as lists of characters (`Str`).  Parts of the
repository that are referenced but whose sources are not in the snapshot
(the `jorup_lib` crate and `utils/{release,version,github}.rs`) are modelled
from the spec; each such definition carries a doc comment saying so.
-/

namespace Jorup

/-- Strings, modelled as lists of characters. -/
abbrev Str := List Char

/-- Modelled from the spec: `Version` (utils/version.rs is not in the
snapshot) is "a totally ordered, string-round-trippable identifier"; only
its total order matters to the claims, so it is modelled as `Nat`. -/
abbrev Version := Nat

/-- Modelled from the spec: `VersionReq` (utils/version.rs is not in the
snapshot) — "a constraint over Versions — either Latest (pick the maximum
available) or Exact (a specific Version)". -/
inductive VersionReq where
  | latest : VersionReq
  | exact (v : Version) : VersionReq
deriving DecidableEq, Repr

/-- Modelled from the spec (4.1): `VersionRequirement::matches(v)` returns
true for Exact(x) iff `v == x`; always true for Latest. -/
def VersionReq.matches : VersionReq → Version → Bool
  | .latest, _ => true
  | .exact x, v => v == x

/-- Modelled from the spec: `jorup_lib::Channel` (the jorup_lib crate is not
in the snapshot) — a fully specified channel instance, "a network name and
a date"; `channel()` and `date()` are its accessors (utils/channel.rs uses
both). -/
structure ChannelDesc where
  channel : Str
  date : Str
deriving DecidableEq, Repr

/-- The literal string "nightly". -/
def nightlyStr : Str := ['n', 'i', 'g', 'h', 't', 'l', 'y']

/-- The literal string "stable". -/
def stableStr : Str := ['s', 't', 'a', 'b', 'l', 'e']

/-- Modelled from the spec: `jorup_lib::Channel::is_nightly` (the jorup_lib
crate is not in the snapshot); stable/nightly act as a coarse 2-way
partition across entries, modelled as the network name being "nightly". -/
def ChannelDesc.is_nightly (c : ChannelDesc) : Bool := c.channel == nightlyStr

/-- Rendering of a specific channel: modelled from the spec ("the specific
channel's string form" round-trips); the network name and the date joined
by a dash. -/
def ChannelDesc.to_string (c : ChannelDesc) : Str := c.channel ++ '-' :: c.date

/-- Split a string at its first dash: `none` when there is no dash. -/
def split_dash : Str → Option (Str × Str)
  | [] => none
  | c :: rest =>
      if c = '-' then some ([], rest)
      else match split_dash rest with
        | none => none
        | some (a, b) => some (c :: a, b)

/-- Modelled from the spec: parsing of a specific channel's string form
(`jorup_lib::Channel::from_str`, not in the snapshot): network name and
date separated by the first dash. -/
def ChannelDesc.from_str (s : Str) : Option ChannelDesc :=
  match split_dash s with
  | none => none
  | some (n, d) => some ⟨n, d⟩

/-- The `Channel` enum of `common.rs` (lines 14-19): `Stable`, `Nightly`,
or `Specific { channel }` holding a fully specified channel. -/
inductive Channel where
  | stable : Channel
  | nightly : Channel
  | specific (channel : ChannelDesc) : Channel
deriving DecidableEq, Repr

/-- The `Channel::is_nightly` method of `common.rs` (lines 47-55). -/
def Channel.is_nightly : Channel → Bool
  | .nightly => true
  | .stable => false
  | .specific channel => channel.is_nightly

/-- The `Display` impl for `Channel` of `common.rs` (lines 235-243). -/
def Channel.to_string : Channel → Str
  | .stable => stableStr
  | .nightly => nightlyStr
  | .specific channel => channel.to_string

/-- The `FromStr` impl for `Channel` of `common.rs` (lines 223-234):
"stable" and "nightly" are the named variants; anything else is parsed as
a specific channel. -/
def Channel.from_str (s : Str) : Option Channel :=
  if s = stableStr then some .stable
  else if s = nightlyStr then some .nightly
  else (ChannelDesc.from_str s).map Channel.specific

/-- A channel is well formed when a specific channel's network name holds
no dash, so that its rendered form splits back unambiguously. -/
def Channel.well_formed : Channel → Prop
  | .specific channel => '-' ∉ channel.channel
  | _ => True

instance : DecidablePred Channel.well_formed := by
  intro c
  cases c <;> simp [Channel.well_formed] <;> infer_instance

/-- The `JorupSettings` struct of `common.rs` (lines 21-25): a single field
`default`, with serde's `deny_unknown_fields`. -/
structure JorupSettings where
  default : Channel
deriving DecidableEq, Repr

/-- Serialization of the settings (`save_settings`, `common.rs` lines
166-172, with the `Serialize` impls of lines 245-252): a TOML document with
the single field `default` holding the channel's string form, modelled as
a key/value list. -/
def save_settings (s : JorupSettings) : List (Str × Str) :=
  [(['d', 'e', 'f', 'a', 'u', 'l', 't'], s.default.to_string)]

/-- Deserialization of the settings (`load_settings`, `common.rs` lines
149-164, with `deny_unknown_fields` and the `Deserialize` impl of lines
254-263): the document must consist of exactly the field `default`
(an unknown field, a missing field or a duplicated field is a parse
error), and the value must parse as a channel. -/
def load_settings (doc : List (Str × Str)) : Option JorupSettings :=
  match doc with
  | [(k, v)] =>
      if k = ['d', 'e', 'f', 'a', 'u', 'l', 't'] then
        (Channel.from_str v).map JorupSettings.mk
      else none
  | _ => none

/-- The `set_default_channel` method of `common.rs` (lines 144-147): set
the default and save the whole settings document; the result is the
document now on disk. -/
def set_default_channel (new_default : Channel) : List (Str × Str) :=
  save_settings ⟨new_default⟩

/-! ## Channel workspace preparation (utils/channel.rs) -/

/-- The `write_all_to` helper of `utils/channel.rs` (lines 136-146): if the
file already exists it returns without writing; otherwise it writes the
content.  The file is modelled as `Option Str` (its content when it
exists). -/
def write_all_to (file : Option Str) (content : Str) : Option Str :=
  match file with
  | some old => some old
  | none => some content

/-- An `Entry` of the channel index: modelled from the spec for the fields
(the jorup_lib crate is not in the snapshot) — a fully-specified channel,
a genesis block hash and a compatible-version requirement
(`entry.channel()`, `entry.genesis().block0_hash()`,
`entry.jormungandr_versions()` as used by utils/channel.rs). -/
structure Entry where
  channel : ChannelDesc
  block0_hash : Str
  jormungandr_versions : VersionReq
deriving DecidableEq, Repr

/-- The `install_block0_hash` method of `utils/channel.rs` (lines 88-93):
write the entry's genesis block hash to the workspace's genesis file
through `write_all_to`. -/
def install_block0_hash (e : Entry) (file : Option Str) : Option Str :=
  write_all_to file e.block0_hash

/-- The `prepare` method of `utils/channel.rs` (lines 84-86): preparing the
workspace installs the genesis block hash. -/
def prepare (e : Entry) (file : Option Str) : Option Str :=
  install_block0_hash e file

/-! ## Channel / Entry resolution -/

/-- Modelled from the spec: `jorup_lib::PartialChannelDesc` (the jorup_lib
crate is not in the snapshot) — "Specific(partial network-name + partial
date). Partial fields are wildcards." -/
structure PartialChannelDesc where
  channel : Option Str
  date : Option Str
deriving DecidableEq, Repr

/-- Modelled from the spec: `PartialChannelDesc::matches` (the jorup_lib
crate is not in the snapshot) — "a descriptor field that is unset matches
any Entry value for that field; a set field must equal exactly." -/
def PartialChannelDesc.matches (p : PartialChannelDesc) (c : ChannelDesc) : Bool :=
  (match p.channel with
    | none => true
    | some n => n == c.channel) &&
  (match p.date with
    | none => true
    | some d => d == c.date)

/-- The entry-selection core of `Channel::load` of `utils/channel.rs`
(lines 44-48) when a channel descriptor was entered on the command line:
`jor.entries().values().filter(|entry| channel_entered.matches(entry.channel())).last()`.
The index's entries are taken in iteration order. -/
def load_entry (entries : List Entry) (channel_entered : PartialChannelDesc) : Option Entry :=
  (entries.filter fun entry => channel_entered.matches entry.channel).getLast?

/-- The `JorupConfig::current_entry` method of `common.rs` (lines 135-142)
used when no descriptor was entered: the first entry of the index (in
iteration order) whose `is_nightly()` flag equals the default channel's,
via `.filter(..).next()`. -/
def current_entry (current_default : Channel) (entries : List Entry) : Option Entry :=
  entries.find? fun entry => current_default.is_nightly == entry.channel.is_nightly

/-! ## Release inventory: install and remove (src/commands/node.rs)

The `Release` and `github` modules (`utils/release.rs`, `utils/github.rs`)
are not in the snapshot; `Release::load`, `Release::new`,
`github::find_matching_release` and the asset handling are modelled from
the spec (4.1, 4.3, 4.4).  A release is identified by its `Version`; the
inventory is the list of installed versions.  Network accesses (the GitHub
feed query and the asset download) are counted in the second component of
`install`'s result. -/

/-- Modelled from the spec: the error enum of `utils/release.rs` (not in
the snapshot); `node.rs` matches on its `NoCompatibleReleaseInstalled`
variant. -/
inductive ReleaseError where
  | NoCompatibleReleaseInstalled (req : VersionReq) : ReleaseError
deriving DecidableEq, Repr

/-- Modelled from the spec: the error enum of `utils/github.rs` (not in the
snapshot): "it fails with NoMatchingRemoteRelease if nothing qualifies". -/
inductive GithubError where
  | NoMatchingRemoteRelease : GithubError
deriving DecidableEq, Repr

/-- The `Error` enum of `src/commands/node.rs` (lines 39-59), restricted to
the variants the modelled commands can produce. -/
inductive NodeError where
  | Offline : NodeError
  | NoValidBlockchain : NodeError
  | GitHub (e : GithubError) : NodeError
  | MustNotSpecifyBlockchainAndVersion : NodeError
  | ReleaseLoad (e : ReleaseError) : NodeError
deriving DecidableEq, Repr

/-- The maximum of a list of versions, `none` when the list is empty. -/
def latest_of (l : List Version) : Option Version :=
  l.foldr (fun v acc => match acc with
    | none => some v
    | some m => some (max v m)) none

/-- Modelled from the spec (4.1, 4.3): `Release::load` (utils/release.rs is
not in the snapshot) — selecting the installed Version satisfying a
requirement: for Exact, the unique matching Version or a not-found error;
for Latest, the maximum of the candidate set, or a not-found error if the
set is empty. -/
def Release.load (inventory : List Version) (req : VersionReq) : Except ReleaseError Version :=
  match req with
  | .exact v =>
      if v ∈ inventory then .ok v
      else .error (.NoCompatibleReleaseInstalled req)
  | .latest =>
      match latest_of inventory with
      | some v => .ok v
      | none => .error (.NoCompatibleReleaseInstalled req)

/-- Modelled from the spec (4.4): `github::find_matching_release`
(utils/github.rs is not in the snapshot) — "resolves a VersionRequirement
against a remote feed by scanning available remote tags and choosing via
the same matching rule as 4.1 (max for Latest, exact match otherwise)". -/
def find_matching_release (remote : List Version) (req : VersionReq) :
    Except GithubError Version :=
  match req with
  | .exact v =>
      if v ∈ remote then .ok v
      else .error .NoMatchingRemoteRelease
  | .latest =>
      match latest_of remote with
      | some v => .ok v
      | none => .error .NoMatchingRemoteRelease

/-- The environment an install or remove command runs against: the offline
flag, the local inventory of installed release versions, the set of
release versions whose downloaded asset is already in the local cache
(modelled from the spec, 4.4: "download only if absent"), the remote
release feed, and the blockchains of the local channel index with their
compatible-version requirements (`Blockchain::load`, whose source is not
in the snapshot, is modelled from the spec as a local index lookup). -/
structure InstallCtx where
  offline : Bool
  inventory : List Version
  asset_cached : List Version
  remote : List Version
  blockchains : List (Str × VersionReq)
deriving DecidableEq, Repr

/-- Modelled from the spec: `Blockchain::load(..).jormungandr_version_req()`
(utils/blockchain.rs is not in the snapshot) — look the named blockchain up
in the local channel index and return its compatible-version requirement;
loading fails when the name is unknown. -/
def blockchain_req (ctx : InstallCtx) (name : Str) : Except NodeError VersionReq :=
  match ctx.blockchains.find? fun b => b.1 == name with
  | some b => .ok b.2
  | none => .error .NoValidBlockchain

/-- The requirement computed by `install` of `src/commands/node.rs`
(lines 91-99): an explicit version gives Exact, a blockchain name gives
the blockchain's requirement, neither gives Latest. -/
def version_req_of (ctx : InstallCtx) (version : Option Version) (blockchain : Option Str) :
    Except NodeError VersionReq :=
  match version with
  | some v => .ok (.exact v)
  | none =>
      match blockchain with
      | none => .ok .latest
      | some name => blockchain_req ctx name

/-- The `install` function of `src/commands/node.rs` (lines 75-139).  The
result pairs the command's outcome (the installed release's version on
success) with the number of network accesses performed: one for each
`github::find_matching_release` query and one for each asset download
(`client.download_file`, performed only when `asset_need_fetched()`).
`Client::new` opens no connection and `release.asset_remote` only forms
the asset reference (modelled from the spec, 4.4); `make_default` updates
the persisted default setting, a local write. -/
def install (ctx : InstallCtx) (version : Option Version) (blockchain : Option Str)
    (make_default : Bool) : Except NodeError Version × Nat :=
  if ctx.offline then (.error .Offline, 0)
  else if version.isSome && blockchain.isSome then
    (.error .MustNotSpecifyBlockchainAndVersion, 0)
  else
    let load_latest := version.isNone && blockchain.isNone
    match version_req_of ctx version blockchain with
    | .error e => (.error e, 0)
    | .ok version_req =>
        let fetch : Except NodeError Version × Nat :=
          match find_matching_release ctx.remote version_req with
          | .ok gh => (.ok gh, 1)
          | .error e => (.error (.GitHub e), 1)
        let found : Except NodeError Version × Nat :=
          if load_latest then fetch
          else
            match Release.load ctx.inventory version_req with
            | .ok release => (.ok release, 0)
            | .error (.NoCompatibleReleaseInstalled _) => fetch
        match found with
        | (.error e, n) => (.error e, n)
        | (.ok release, n) =>
            if release ∈ ctx.asset_cached then (.ok release, n)
            else (.ok release, n + 1)

/-- The `remove` function of `src/commands/node.rs` (lines 148-154):
resolve the release by the exact version, then delete its directory.  The
result pairs the command's outcome with the inventory afterwards. -/
def remove (inventory : List Version) (version : Version) :
    Except NodeError Unit × List Version :=
  match Release.load inventory (VersionReq.exact version) with
  | .ok release => (.ok (), inventory.erase release)
  | .error e => (.error (.ReleaseLoad e), inventory)

/-! ## Decidability helpers -/

instance {ε α : Type} [DecidableEq ε] [DecidableEq α] : DecidableEq (Except ε α) := fun x y =>
  match x, y with
  | .ok a, .ok b =>
      if h : a = b then .isTrue (by rw [h])
      else .isFalse (by intro hc; cases hc; exact h rfl)
  | .ok _, .error _ => .isFalse (by intro hc; cases hc)
  | .error _, .ok _ => .isFalse (by intro hc; cases hc)
  | .error e, .error f =>
      if h : e = f then .isTrue (by rw [h])
      else .isFalse (by intro hc; cases hc; exact h rfl)

instance : DecidablePred Channel.well_formed := fun c =>
  match c with
  | .stable => .isTrue trivial
  | .nightly => .isTrue trivial
  | .specific channel => inferInstanceAs (Decidable ('-' ∉ channel.channel))

/-! ## Helper lemmas -/

/-- Finding the first element satisfying a predicate is taking the head of
the filtered list. -/
theorem find?_eq_head?_filter {α : Type} (p : α → Bool) (l : List α) :
    l.find? p = (l.filter p).head? := by
  induction l with
  | nil => rfl
  | cons a t ih =>
      rw [List.find?_cons, List.filter_cons]
      by_cases h : p a
      · simp [h]
      · simp only [h, Bool.false_eq_true, if_false]
        simpa [h] using ih

/-- The last element of the filtered list is the first match of the
reversed list. -/
theorem getLast?_filter_eq_reverse_find? {α : Type} (p : α → Bool) (l : List α) :
    (l.filter p).getLast? = l.reverse.find? p := by
  rw [List.getLast?_eq_head?_reverse, ← List.filter_reverse, ← find?_eq_head?_filter]

/-- Splitting at the first dash undoes joining with a dash, provided the
left part holds no dash. -/
theorem split_dash_append (n d : Str) (h : '-' ∉ n) :
    split_dash (n ++ '-' :: d) = some (n, d) := by
  induction n with
  | nil => simp [split_dash]
  | cons c rest ih =>
      have hc : ¬(c = '-') := fun hc => h (hc ▸ List.mem_cons_self c rest)
      have hrest : '-' ∉ rest := fun hm => h (List.mem_cons_of_mem c hm)
      simp only [List.cons_append, split_dash, if_neg hc, List.append_eq, ih hrest]

/-- A specific channel's string form always holds a dash. -/
theorem dash_mem_specific_to_string (channel : ChannelDesc) :
    '-' ∈ (Channel.specific channel).to_string := by
  simp [Channel.to_string, ChannelDesc.to_string]

/-- Parsing undoes rendering for a well-formed channel. -/
theorem channel_from_str_to_string (c : Channel) (h : c.well_formed) :
    Channel.from_str c.to_string = some c := by
  cases c with
  | stable => decide
  | nightly => decide
  | specific channel =>
      have hmem := dash_mem_specific_to_string channel
      have h1 : Channel.to_string (.specific channel) ≠ stableStr := by
        intro he
        rw [he] at hmem
        revert hmem
        decide
      have h2 : Channel.to_string (.specific channel) ≠ nightlyStr := by
        intro he
        rw [he] at hmem
        revert hmem
        decide
      have h3 : '-' ∉ channel.channel := h
      simp only [Channel.to_string, ChannelDesc.to_string] at h1 h2
      simp [Channel.from_str, Channel.to_string, ChannelDesc.to_string, if_neg h1,
        if_neg h2, ChannelDesc.from_str, split_dash_append _ _ h3]

/-! ## Claim theorems -/

/-- C2: once the genesis-hash file of a channel workspace exists, preparing
the workspace again — with any entry, so with any genesis hash input —
leaves the file's content unchanged; in particular the content written by
a first successful preparation is never overwritten by a later prepare. -/
theorem prepare_genesis_write_once (e1 e2 : Entry) (c : Str) :
    prepare e2 (some c) = some c ∧
    prepare e2 (prepare e1 none) = prepare e1 none := by
  constructor <;> rfl

/-- C5: setting the default channel to a well-formed channel and then
loading the settings document afresh yields exactly that channel: the
default round-trips through the settings document without loss. -/
theorem set_default_round_trip (c : Channel) (h : c.well_formed) :
    load_settings (set_default_channel c) = some ⟨c⟩ := by
  simp [set_default_channel, save_settings, load_settings,
    channel_from_str_to_string c h]

/-- Witness for C5 at a concrete specific channel. -/
theorem set_default_round_trip_witness :
    load_settings (set_default_channel (Channel.specific ⟨['b'], ['2']⟩)) =
      some ⟨Channel.specific ⟨['b'], ['2']⟩⟩ :=
  set_default_round_trip (Channel.specific ⟨['b'], ['2']⟩) (by decide)

/-- C6: a settings document holding any field other than the single
recognized field `default` fails to deserialize. -/
theorem load_settings_rejects_unknown_fields (doc : List (Str × Str))
    (h : ∃ kv ∈ doc, kv.1 ≠ ['d', 'e', 'f', 'a', 'u', 'l', 't']) :
    load_settings doc = none := by
  match doc with
  | [] => simp at h
  | [(k, v)] =>
      obtain ⟨kv, hm, hne⟩ := h
      simp only [List.mem_singleton] at hm
      subst hm
      simp only [load_settings, if_neg hne]
  | a :: b :: rest => rfl

/-- Witness for C6 at a concrete one-field document with an unknown
field. -/
theorem load_settings_rejects_unknown_fields_witness :
    load_settings [(['x'], ['y'])] = none :=
  load_settings_rejects_unknown_fields [(['x'], ['y'])]
    ⟨(['x'], ['y']), by simp, by decide⟩

/-- C9: removing a version resolves the release by the exact version: when
the version is not installed the command fails with the
release-not-installed error (`NoCompatibleReleaseInstalled` of the exact
requirement) and the inventory is left unchanged; when it is installed,
exactly that release's directory is deleted. -/
theorem remove_exact_version (inventory : List Version) (v : Version) :
    remove inventory v =
      if v ∈ inventory then (.ok (), inventory.erase v)
      else (.error (.ReleaseLoad (.NoCompatibleReleaseInstalled (.exact v))), inventory) := by
  by_cases h : v ∈ inventory <;> simp [remove, Release.load, h]

/-- C3: a descriptor field that is unset matches any entry value for that
field and a set field must equal the entry's value exactly; the entry the
resolver returns for a supplied (possibly partial) descriptor is the last
matching entry in the index's iteration order. -/
theorem load_entry_matching_and_last (entries : List Entry) (p : PartialChannelDesc) :
    (∀ c : ChannelDesc, p.matches c = true ↔
        ((∀ n, p.channel = some n → c.channel = n) ∧
         (∀ d, p.date = some d → c.date = d))) ∧
    load_entry entries p = entries.reverse.find? fun e => p.matches e.channel := by
  constructor
  · intro c
    cases hc : p.channel <;> cases hd : p.date <;>
      simp only [PartialChannelDesc.matches, hc, hd, Bool.and_eq_true, beq_iff_eq,
        Option.some.injEq, forall_eq'] <;>
      simp [eq_comm]
  · unfold load_entry
    rw [getLast?_filter_eq_reverse_find?]

/-- C4: when no descriptor is supplied the resolver returns, from the
index, an entry whose nightliness equals the configured default channel's
whenever such an entry exists, and no entry otherwise. -/
theorem current_entry_nightly_partition (d : Channel) (entries : List Entry) :
    (∀ e, current_entry d entries = some e →
        e ∈ entries ∧ e.channel.is_nightly = d.is_nightly) ∧
    (current_entry d entries = none ↔
        ∀ e ∈ entries, e.channel.is_nightly ≠ d.is_nightly) := by
  constructor
  · intro e he
    refine ⟨List.mem_of_find?_eq_some he, ?_⟩
    have hp := List.find?_some he
    simp only [beq_iff_eq] at hp
    exact hp.symm
  · unfold current_entry
    rw [List.find?_eq_none]
    constructor
    · intro h e he heq
      exact h e he (by simp [heq])
    · intro h e he
      simp only [beq_iff_eq]
      exact fun heq => h e he heq.symm

/-- C10: the two resolution paths use opposite tie-breaks: descriptor
resolution returns the last matching entry in iteration order, while
resolution via the configured default channel returns the first entry
whose nightliness matches — and not the last one whenever the two
differ. -/
theorem resolution_tie_breaks_opposite (entries : List Entry) (p : PartialChannelDesc)
    (d : Channel) :
    load_entry entries p = entries.reverse.find? (fun e => p.matches e.channel) ∧
    current_entry d entries =
      (entries.filter fun e => d.is_nightly == e.channel.is_nightly).head? ∧
    (((entries.filter fun e => d.is_nightly == e.channel.is_nightly).head? ≠
        (entries.filter fun e => d.is_nightly == e.channel.is_nightly).getLast?) →
      current_entry d entries ≠
        (entries.filter fun e => d.is_nightly == e.channel.is_nightly).getLast?) := by
  have hcur : current_entry d entries =
      (entries.filter fun e => d.is_nightly == e.channel.is_nightly).head? :=
    find?_eq_head?_filter _ entries
  refine ⟨?_, hcur, ?_⟩
  · unfold load_entry
    rw [getLast?_filter_eq_reverse_find?]
  · intro hne heq
    exact hne (hcur ▸ heq)

/-- C7: with the offline flag set, an install whose requirement is not
satisfied by the inventory fails with the offline-violation error, and no
network call is attempted before the failure. -/
theorem install_offline_error (ctx : InstallCtx) (version : Option Version)
    (blockchain : Option Str) (make_default : Bool) (req : VersionReq)
    (hoff : ctx.offline = true)
    (hreq : version_req_of ctx version blockchain = .ok req)
    (hmiss : Release.load ctx.inventory req = .error (.NoCompatibleReleaseInstalled req)) :
    install ctx version blockchain make_default = (.error .Offline, 0) := by
  simp [install, hoff]

/-- Witness for C7: offline install on an empty inventory. -/
theorem install_offline_error_witness :
    install ⟨true, [], [], [], []⟩ none none false = (.error .Offline, 0) :=
  install_offline_error ⟨true, [], [], [], []⟩ none none false .latest rfl rfl rfl

/-- C8 counterexample: when the offline flag is also set, a request
supplying both an explicit version and a blockchain name fails with the
offline error, not with the conflicting-request error, because the offline
check runs first (`node.rs` lines 81-87). -/
theorem install_conflict_error_not_universal :
    install ⟨true, [], [], [], []⟩ (some 1) (some ['m']) false = (.error .Offline, 0) ∧
    NodeError.Offline ≠ NodeError.MustNotSpecifyBlockchainAndVersion :=
  ⟨rfl, by decide⟩

/-- C8 amended: with the offline flag unset, every install request
supplying both an explicit version and a blockchain name fails with the
conflicting-request validation error, with no network access before the
failure. -/
theorem install_conflict_error (ctx : InstallCtx) (v : Version) (name : Str)
    (make_default : Bool) (hoff : ctx.offline = false) :
    install ctx (some v) (some name) make_default =
      (.error .MustNotSpecifyBlockchainAndVersion, 0) := by
  simp [install, hoff]

/-- Witness for C8's amended claim at a concrete request. -/
theorem install_conflict_error_witness :
    install ⟨false, [], [], [], []⟩ (some 1) (some ['m']) false =
      (.error .MustNotSpecifyBlockchainAndVersion, 0) :=
  install_conflict_error ⟨false, [], [], [], []⟩ 1 ['m'] false rfl

/-- C1 counterexample: with no version and no blockchain supplied the
requirement is Latest, which the installed release 1 already satisfies
(`Release::load` succeeds locally), yet install queries the remote feed
(one network access) and returns the remote release 2 instead of the
installed release 1. -/
theorem install_latest_queries_network_despite_local :
    VersionReq.matches .latest 1 = true ∧
    Release.load [1] .latest = .ok 1 ∧
    install ⟨false, [1], [1, 2], [2], []⟩ none none false = (.ok 2, 1) :=
  ⟨rfl, rfl, rfl⟩

/-- C1 amended: when an explicit version or a blockchain name (not both)
is supplied and the offline flag is unset, if a locally installed release
satisfies the derived requirement (its asset cached, i.e. the release
fully installed), install performs no network access and returns that
release. -/
theorem install_no_network_when_satisfied (ctx : InstallCtx) (version : Option Version)
    (blockchain : Option Str) (make_default : Bool) (req : VersionReq) (r : Version)
    (hoff : ctx.offline = false)
    (hsel : version.isSome = true ∨ blockchain.isSome = true)
    (hnotboth : version.isSome = false ∨ blockchain.isSome = false)
    (hreq : version_req_of ctx version blockchain = .ok req)
    (hload : Release.load ctx.inventory req = .ok r)
    (hcache : r ∈ ctx.asset_cached) :
    install ctx version blockchain make_default = (.ok r, 0) := by
  cases version with
  | none =>
      cases blockchain with
      | none => simp at hsel
      | some name => simp [install, hoff, hreq, hload, hcache]
  | some v =>
      cases blockchain with
      | some name => simp at hnotboth
      | none => simp [install, hoff, hreq, hload, hcache]

/-- Witness for C1's amended claim: version 3 installed and cached,
explicit request for version 3. -/
theorem install_no_network_when_satisfied_witness :
    install ⟨false, [3], [3], [], []⟩ (some 3) none true = (.ok 3, 0) :=
  install_no_network_when_satisfied ⟨false, [3], [3], [], []⟩ (some 3) none true
    (.exact 3) 3 rfl (Or.inl rfl) (Or.inr rfl) rfl (by decide) (by decide)

end Jorup
